import Mathlib

/-!
Shallow embedding of `add_deps.py` (stanfordnlp txt-to-cupt batch converter)
and verification of its specification claims.

The data model mirrors the stanfordnlp objects the script consumes: a
`Document` has `sentences`, a `Sentence` has `words`, and a `Word` carries
the attributes read by the script (`index`, `text`, `lemma`, `upos`, `xpos`,
`feats`, `governor`, `dependency_relation`).  Optional attributes are
`Option`-valued; Python truthiness tests (`x if x else ""`) are embedded
explicitly.  The filesystem is modelled as an association list from paths to
file contents, and the external pipeline as a function `String → Option
Document`, `none` standing for a raised exception (from reading the file or
running the pipeline), which the script catches per file.
-/

namespace AddDeps

/-- A stanfordnlp `Word` as used by `add_deps.py`: the script reads
`index`, `text`, `lemma`, `upos`, `xpos`, `feats`, `governor` and
`dependency_relation`.  `lemma` is spelt `lemma_` because `lemma` is a
Lean keyword. -/
structure Word where
  index : Nat
  text : String
  lemma_ : Option String
  upos : Option String
  xpos : Option String
  feats : Option String
  governor : Option Nat
  dependency_relation : Option String
deriving Repr, DecidableEq

/-- A stanfordnlp `Sentence`: the script only uses `sentence.words`. -/
structure Sentence where
  words : List Word
deriving Repr, DecidableEq

/-- A stanfordnlp `Document`: the script only uses `doc.sentences`. -/
structure Document where
  sentences : List Sentence
deriving Repr, DecidableEq

/-- Python `s if s else ""` for an optional string attribute: `None` and
the empty string are falsy, any other string is passed through. -/
def pyStr (o : Option String) : String :=
  match o with
  | none => ""
  | some s => if s.isEmpty then "" else s

/-- Python `g if g else ""` for the integer `governor` attribute followed
by `str(...)`: `None` and `0` are falsy and give `""`, any other number is
rendered in decimal. -/
def pyGov (o : Option Nat) : String :=
  match o with
  | none => ""
  | some g => if g = 0 then "" else toString g

/-- The `word_props` list built for one word in `tag_files`
(src/add_deps.py lines 118-133): ID, FORM, LEMMA, UPOS, XPOS, FEATS,
HEAD, DEPREL, then literal `_` for DEPS, MISC and PARSEME:MWE, each
entry passed through `str`. -/
def wordProps (w : Word) : List String :=
  [toString w.index, w.text, pyStr w.lemma_, pyStr w.upos, pyStr w.xpos,
   pyStr w.feats, pyGov w.governor, pyStr w.dependency_relation,
   "_", "_", "_"]

/-- The emitted data line for one word: `"\t".join(word_props)`. -/
def wordLine (w : Word) : String :=
  String.intercalate "\t" (wordProps w)

/-- `get_original_sentence` (src/add_deps.py lines 50-74): concatenate the
words' texts; a word that is not the last is followed by a space unless the
next word's `upos` is `"PUNCT"`; the last word gets no trailing space. -/
def get_original_sentence : List Word → String
  | [] => ""
  | [w] => w.text
  | w :: w2 :: rest =>
      (if w2.upos = some "PUNCT" then w.text else w.text ++ " ")
        ++ get_original_sentence (w2 :: rest)

/-- The spec's wording of sentence reconstruction, stated independently of
the loop in the code: join, over consecutive pairs of words, the first
word's text followed by a space unless the second word's upos is PUNCT,
then append the last word's text with no trailing space. -/
def specReconstruct (ws : List Word) : String :=
  String.join ((ws.zip ws.tail).map
      (fun p => p.1.text ++ if p.2.upos = some "PUNCT" then "" else " "))
    ++ (match ws.getLast? with
        | none => ""
        | some w => w.text)

/-- The fixed first line of every output file
(src/add_deps.py line 109). -/
def globalColumnsLine : String :=
  "# global.columns = ID FORM LEMMA UPOS XPOS FEATS HEAD DEPREL DEPS MISC PARSEME:MWE"

/-- The lines appended to `cupt_content` for one sentence
(src/add_deps.py lines 111-136): the `# source_sent_id` comment, the
`# text` comment, then — inside the word loop — the joined word line
followed by an empty line for every word. -/
def sentenceContent (pathToFile : String) (s : Sentence) : List String :=
  ("# source_sent_id = . . " ++ pathToFile)
    :: ("# text = " ++ get_original_sentence s.words)
    :: s.words.foldl (fun acc w => acc ++ [wordLine w, ""]) []

/-- The full `cupt_content` list assembled for one input file
(src/add_deps.py lines 108-136): the global-columns header, then the
per-sentence lines in document order. -/
def cuptContent (pathToFile : String) (sents : List Sentence) : List String :=
  sents.foldl (fun acc s => acc ++ sentenceContent pathToFile s)
    [globalColumnsLine]

/-- The write loop (src/add_deps.py lines 139-141): each line of
`cupt_content` is written followed by a newline. -/
def renderLines (lines : List String) : String :=
  String.join (lines.map (fun l => l ++ "\n"))

/-- Whether a string starts with the separator `/`. -/
def startsWithSlash (s : String) : Bool :=
  match s.toList with
  | [] => false
  | c :: _ => c == '/'

/-- Whether a string ends with the separator `/`. -/
def endsWithSlash (s : String) : Bool :=
  match s.toList.getLast? with
  | none => false
  | some c => c == '/'

/-- Python `os.path.join(a, b)` (posix): `b` wins if absolute, otherwise
`a` and `b` are glued with a `/` unless `a` is empty or already ends in
one. -/
def pyJoin (a b : String) : String :=
  if startsWithSlash b then b
  else if a.toList.isEmpty || endsWithSlash a then a ++ b
  else a ++ "/" ++ b

/-- Python `os.path.splitext(name)[0]` for a basename (no directory
separators): drop the suffix starting at the last dot, except that a
dot with only dots before it is part of the root (so `.bashrc` keeps
its dot). -/
def splitextRoot (name : String) : String :=
  let cs := name.toList
  match ((cs.enum.filter (fun p => p.2 == '.')).getLast?).map Prod.fst with
  | none => name
  | some i => if (cs.take i).any (fun c => c != '.') then String.mk (cs.take i) else name

/-- One entry of the source directory, as `tag_files` sees it: its
`os.listdir` name and its content; `content = none` models a read that
raises. -/
structure SrcFile where
  name : String
  content : Option String
deriving Repr, DecidableEq

/-- The destination directory modelled as an association list from paths
to file contents. -/
abbrev FS := List (String × String)

/-- `os.path.exists` over the modelled destination directory. -/
def pathExists (fs : FS) (p : String) : Bool :=
  fs.any (fun e => e.1 == p)

/-- The output path `os.path.join(destination, filename + ".cupt")`
derived in `tag_files` (src/add_deps.py lines 98-99), where `filename`
is the listing name without its extension. -/
def outFile (destination name : String) : String :=
  pyJoin destination (splitextRoot name ++ ".cupt")

/-- The full path `os.path.join(source, filename)` of an input file
(src/add_deps.py line 94). -/
def pathToFile (source name : String) : String :=
  pyJoin source name

/-- The body of the per-file loop of `tag_files` (src/add_deps.py lines
96-144) for one file: skip if the output path exists; otherwise read and
run the pipeline — `none` models the exception caught by the
`try`/`except`, which leaves the filesystem unchanged — and on success
write the fully assembled content to the output path. -/
def processFile (nlp : String → Option Document) (source destination : String)
    (fs : FS) (f : SrcFile) : FS :=
  let out := outFile destination f.name
  if pathExists fs out then fs
  else
    match f.content with
    | none => fs
    | some txt =>
      match nlp txt with
      | none => fs
      | some doc =>
          fs ++ [(out, renderLines (cuptContent (pathToFile source f.name) doc.sentences))]

/-- `tag_files` (src/add_deps.py lines 77-144) over a directory listing:
fold the per-file body over the files in listing order. -/
def tag_files (nlp : String → Option Document) (source destination : String)
    (files : List SrcFile) (fs : FS) : FS :=
  files.foldl (processFile nlp source destination) fs

/-- Whether processing a file raises (read error, or pipeline error),
i.e. whether the `except` branch of `tag_files` fires for it. -/
def procFails (nlp : String → Option Document) (f : SrcFile) : Bool :=
  match f.content with
  | none => true
  | some txt => (nlp txt).isNone

/-- The default processor chain, constant `PROCESSORS`
(src/add_deps.py line 10). -/
def PROCESSORS : String := "tokenize,mwt,pos,lemma,depparse"

/-- The `__main__` normalization step (src/add_deps.py lines 151-152):
if `args.processors` is truthy (a non-empty list) and does not contain
`"tokenize"`, append `"tokenize"`. -/
def appendTokenize (ps : Option (List String)) : Option (List String) :=
  match ps with
  | none => none
  | some l => if !l.isEmpty && !l.contains "tokenize" then some (l ++ ["tokenize"]) else some l

/-- The effective processors string handed to the pipeline
(src/add_deps.py line 153): the comma-join of the (normalized) list when
truthy, else the default `PROCESSORS` chain. -/
def processorsArg (ps : Option (List String)) : String :=
  match appendTokenize ps with
  | none => PROCESSORS
  | some l => if !l.isEmpty then String.intercalate "," l else PROCESSORS

/-- The effective `pos_batch_size` (src/add_deps.py line 154):
`args.batch if args.batch else 1000`, where `None` and `0` are falsy. -/
def posBatchSizeArg (batch : Option Int) : Int :=
  match batch with
  | none => 1000
  | some n => if n = 0 then 1000 else n

/-! ### Helper lemmas -/

theorem string_join_cons (s : String) (l : List String) :
    String.join (s :: l) = s ++ String.join l := by
  simp [String.join_eq]
  rfl

theorem specReconstruct_cons_cons (w w2 : Word) (rest : List Word) :
    specReconstruct (w :: w2 :: rest)
      = (w.text ++ if w2.upos = some "PUNCT" then "" else " ")
        ++ specReconstruct (w2 :: rest) := by
  unfold specReconstruct
  simp only [List.tail_cons, List.zip_cons_cons, List.map_cons, string_join_cons,
    List.getLast?_cons_cons]
  rw [String.append_assoc]

/-! ### Claim theorems -/

/-- C1: sentence reconstruction concatenates each word's text with a single
space inserted after a word unless the next word's upos is `PUNCT`, with no
trailing space after the final word; in particular
`[("Hello","INTJ"), (",","PUNCT"), ("world","NOUN"), ("!","PUNCT")]`
reconstructs to `"Hello, world!"`. -/
theorem get_original_sentence_spec :
    (∀ ws : List Word, get_original_sentence ws = specReconstruct ws) ∧
    get_original_sentence
      [⟨1, "Hello", none, some "INTJ", none, none, none, none⟩,
       ⟨2, ",", none, some "PUNCT", none, none, none, none⟩,
       ⟨3, "world", none, some "NOUN", none, none, none, none⟩,
       ⟨4, "!", none, some "PUNCT", none, none, none, none⟩] = "Hello, world!" := by
  constructor
  · intro ws
    induction ws with
    | nil => rfl
    | cons w tail ih =>
      cases tail with
      | nil =>
        have hj : String.join [] = "" := rfl
        simp [get_original_sentence, specReconstruct, hj]
      | cons w2 rest =>
        have hg : get_original_sentence (w :: w2 :: rest)
            = (if w2.upos = some "PUNCT" then w.text else w.text ++ " ")
              ++ get_original_sentence (w2 :: rest) := rfl
        rw [hg, specReconstruct_cons_cons, ih]
        by_cases h : w2.upos = some "PUNCT" <;> simp [h]
  · decide

/-- C2: every emitted word record has exactly 11 fields, its last three
fields are the literal `_`, and the emitted line is the tab-join of those
fields. -/
theorem wordProps_eleven_fields :
    ∀ w : Word, (wordProps w).length = 11 ∧
      (wordProps w).drop 8 = ["_", "_", "_"] ∧
      wordLine w = String.intercalate "\t" (wordProps w) :=
  fun _ => ⟨rfl, rfl, rfl⟩

/-- C4: each optional textual attribute (lemma, upos, xpos, feats,
dependency relation) is emitted as the empty string when it is absent or
empty, and the HEAD field is emitted as the empty string whenever the
governor is falsy, i.e. both for a missing governor and for governor 0. -/
theorem wordProps_field_defaults :
    ∀ w : Word,
      ((w.lemma_ = none ∨ w.lemma_ = some "") → (wordProps w).getD 2 "?" = "") ∧
      ((w.upos = none ∨ w.upos = some "") → (wordProps w).getD 3 "?" = "") ∧
      ((w.xpos = none ∨ w.xpos = some "") → (wordProps w).getD 4 "?" = "") ∧
      ((w.feats = none ∨ w.feats = some "") → (wordProps w).getD 5 "?" = "") ∧
      ((w.governor = none ∨ w.governor = some 0) → (wordProps w).getD 6 "?" = "") ∧
      ((w.dependency_relation = none ∨ w.dependency_relation = some "") →
        (wordProps w).getD 7 "?" = "") := by
  intro w
  refine ⟨?_, ?_, ?_, ?_, ?_, ?_⟩ <;>
    rintro (h | h) <;> simp [wordProps, pyStr, pyGov, h]

/-- C4 witness: a concrete word with empty upos, missing lemma and xpos and
dependency relation, empty feats and governor 0 gets empty LEMMA, UPOS,
XPOS, FEATS, HEAD and DEPREL fields. -/
theorem wordProps_field_defaults_witness :
    (wordProps ⟨5, "x", none, some "", none, some "", some 0, none⟩).getD 2 "?" = "" ∧
    (wordProps ⟨5, "x", none, some "", none, some "", some 0, none⟩).getD 3 "?" = "" ∧
    (wordProps ⟨5, "x", none, some "", none, some "", some 0, none⟩).getD 4 "?" = "" ∧
    (wordProps ⟨5, "x", none, some "", none, some "", some 0, none⟩).getD 5 "?" = "" ∧
    (wordProps ⟨5, "x", none, some "", none, some "", some 0, none⟩).getD 6 "?" = "" ∧
    (wordProps ⟨5, "x", none, some "", none, some "", some 0, none⟩).getD 7 "?" = "" := by
  have h := wordProps_field_defaults ⟨5, "x", none, some "", none, some "", some 0, none⟩
  exact ⟨h.1 (Or.inl rfl), h.2.1 (Or.inr rfl), h.2.2.1 (Or.inl rfl),
    h.2.2.2.1 (Or.inr rfl), h.2.2.2.2.1 (Or.inr rfl), h.2.2.2.2.2 (Or.inl rfl)⟩

theorem foldl_append_eq {α β : Type} (f : α → List β) (l : List α) (a : List β) :
    l.foldl (fun acc x => acc ++ f x) a = a ++ (l.map f).flatten := by
  induction l generalizing a with
  | nil => simp
  | cons x t ih => simp [ih]

theorem sentenceContent_eq (path : String) (s : Sentence) :
    sentenceContent path s
      = ("# source_sent_id = . . " ++ path)
        :: ("# text = " ++ get_original_sentence s.words)
        :: (s.words.map (fun w => [wordLine w, ""])).flatten := by
  unfold sentenceContent
  rw [foldl_append_eq]
  simp

/-- C9: the first output line is the fixed global-columns header and every
sentence's block starts with the `# source_sent_id = . . <path>` comment
and the `# text = <reconstructed sentence>` comment before the sentence's
word lines. -/
theorem cuptContent_structure :
    ∀ (path : String) (sents : List Sentence),
      cuptContent path sents
        = globalColumnsLine
          :: (sents.map (fun s =>
                ("# source_sent_id = . . " ++ path)
                  :: ("# text = " ++ get_original_sentence s.words)
                  :: (s.words.map (fun w => [wordLine w, ""])).flatten)).flatten := by
  intro path sents
  unfold cuptContent
  rw [foldl_append_eq (sentenceContent path)]
  have hfun : sentenceContent path = fun s =>
      ("# source_sent_id = . . " ++ path)
        :: ("# text = " ++ get_original_sentence s.words)
        :: (s.words.map (fun w => [wordLine w, ""])).flatten :=
    funext (sentenceContent_eq path)
  rw [hfun]
  simp

/-- C3 evaluation: on a two-word sentence the code emits a blank line
after EVERY word line (the `cupt_content.append("")` sits inside the word
loop), so a blank line separates the two word lines of the same sentence,
contradicting the claim that blank lines appear only after a sentence. -/
theorem cuptContent_blank_line_after_each_word :
    cuptContent "dir/a.txt"
        [⟨[⟨1, "Nice", some "nice", some "ADJ", none, none, some 2, some "amod"⟩,
           ⟨2, "day", some "day", some "NOUN", none, none, some 0, some "root"⟩]⟩]
      = [globalColumnsLine,
         "# source_sent_id = . . dir/a.txt",
         "# text = Nice day",
         "1\tNice\tnice\tADJ\t\t\t2\tamod\t_\t_\t_",
         "",
         "2\tday\tday\tNOUN\t\t\t\troot\t_\t_\t_",
         ""] := by
  decide

/-- C8 counterexample: `--processors` given with an empty stage list is
provided and does not contain `tokenize`, yet nothing is appended (the
empty list is falsy in Python), and the effective stage string is the full
default chain rather than the join of `[] ++ ["tokenize"]`. -/
theorem processorsArg_empty_counterexample :
    appendTokenize (some []) = some [] ∧
    processorsArg (some []) = PROCESSORS ∧
    processorsArg (some []) ≠ String.intercalate "," ([] ++ ["tokenize"]) := by
  decide

/-- C8 amended: if `--processors` is provided with a NON-EMPTY list that
does not contain `tokenize`, then `tokenize` is appended and the effective
stage string is the comma-join of the given list plus `tokenize`; if
`--processors` is omitted — or provided as an empty list — the effective
stage string is the full default chain. -/
theorem processorsArg_amended :
    (∀ l : List String, l ≠ [] → "tokenize" ∉ l →
        appendTokenize (some l) = some (l ++ ["tokenize"]) ∧
        processorsArg (some l) = String.intercalate "," (l ++ ["tokenize"])) ∧
    processorsArg none = PROCESSORS ∧
    processorsArg (some []) = PROCESSORS := by
  refine ⟨?_, rfl, rfl⟩
  intro l hne hni
  have h1 : appendTokenize (some l) = some (l ++ ["tokenize"]) := by
    simp [appendTokenize, hne, hni]
  refine ⟨h1, ?_⟩
  simp [processorsArg, h1, hne]

/-- C8 witness: `--processors pos` yields the effective stage string
`"pos,tokenize"`. -/
theorem processorsArg_amended_witness :
    processorsArg (some ["pos"]) = "pos,tokenize" := by
  have h := (processorsArg_amended.1 ["pos"] (by decide) (by decide)).2
  rw [h]
  decide

/-- C10: the `pos_batch_size` handed to the pipeline is 1000 when
`--batch` is omitted and also when it is the explicit falsy value 0,
while any non-zero value is passed through unchanged. -/
theorem posBatchSizeArg_fallback :
    posBatchSizeArg none = 1000 ∧ posBatchSizeArg (some 0) = 1000 ∧
    ∀ n : Int, n ≠ 0 → posBatchSizeArg (some n) = n := by
  refine ⟨rfl, rfl, ?_⟩
  intro n hn
  simp [posBatchSizeArg, hn]

/-- C10 witness: omitted and `0` both give 1000, `7` is passed through. -/
theorem posBatchSizeArg_fallback_witness :
    posBatchSizeArg none = 1000 ∧ posBatchSizeArg (some 0) = 1000 ∧
    posBatchSizeArg (some 7) = 7 :=
  ⟨posBatchSizeArg_fallback.1, posBatchSizeArg_fallback.2.1,
    posBatchSizeArg_fallback.2.2 7 (by decide)⟩

theorem processFile_of_fails (nlp : String → Option Document) (s d : String)
    (fs : FS) (f : SrcFile) (h : procFails nlp f = true) :
    processFile nlp s d fs f = fs := by
  unfold procFails at h
  cases hc : f.content with
  | none =>
    simp only [processFile, hc]
    split <;> rfl
  | some txt =>
    rw [hc] at h
    have hn : nlp txt = none := Option.isNone_iff_eq_none.mp h
    simp only [processFile, hc, hn]
    split <;> rfl

theorem pathExists_append (fs : FS) (e : String × String) (p : String) :
    pathExists (fs ++ [e]) p = (pathExists fs p || (e.1 == p)) := by
  simp [pathExists, List.any_append]

theorem pathExists_processFile (nlp : String → Option Document) (s d : String)
    (fs : FS) (f : SrcFile) (p : String) (h : pathExists fs p = true) :
    pathExists (processFile nlp s d fs f) p = true := by
  simp only [processFile]
  split
  · exact h
  · split
    · exact h
    · split
      · exact h
      · rw [pathExists_append]
        simp [h]

theorem pathExists_tag_files (nlp : String → Option Document) (s d : String) :
    ∀ (files : List SrcFile) (fs : FS) (p : String), pathExists fs p = true →
      pathExists (tag_files nlp s d files fs) p = true := by
  intro files
  induction files with
  | nil => intro fs p h; exact h
  | cons f t ih =>
    intro fs p h
    exact ih (processFile nlp s d fs f) p (pathExists_processFile nlp s d fs f p h)

theorem processFile_covers (nlp : String → Option Document) (s d : String)
    (fs : FS) (f : SrcFile) :
    pathExists (processFile nlp s d fs f) (outFile d f.name) = true ∨
      procFails nlp f = true := by
  by_cases hE : pathExists fs (outFile d f.name) = true
  · exact Or.inl (pathExists_processFile nlp s d fs f _ hE)
  · have hE' : pathExists fs (outFile d f.name) = false := by
      revert hE
      cases pathExists fs (outFile d f.name) <;> simp
    cases hc : f.content with
    | none => exact Or.inr (by simp [procFails, hc])
    | some txt =>
      cases hn : nlp txt with
      | none => exact Or.inr (by simp [procFails, hc, hn])
      | some doc =>
        left
        simp only [processFile, hc, hn, hE', Bool.false_eq_true, if_false]
        rw [pathExists_append]
        simp

theorem tag_files_covers (nlp : String → Option Document) (s d : String) :
    ∀ (files : List SrcFile) (fs : FS) (f : SrcFile), f ∈ files →
      pathExists (tag_files nlp s d files fs) (outFile d f.name) = true ∨
        procFails nlp f = true := by
  intro files
  induction files with
  | nil => intro fs f h; cases h
  | cons g t ih =>
    intro fs f h
    rcases List.mem_cons.mp h with rfl | hmem
    · rcases processFile_covers nlp s d fs f with hc | hf
      · exact Or.inl (pathExists_tag_files nlp s d t _ _ hc)
      · exact Or.inr hf
    · exact ih (processFile nlp s d fs g) f hmem

theorem tag_files_id_of_covered (nlp : String → Option Document) (s d : String) :
    ∀ (files : List SrcFile) (fs : FS),
      (∀ f ∈ files, pathExists fs (outFile d f.name) = true ∨ procFails nlp f = true) →
      tag_files nlp s d files fs = fs := by
  intro files
  induction files with
  | nil => intro fs _; rfl
  | cons g t ih =>
    intro fs h
    have hpg : processFile nlp s d fs g = fs := by
      rcases h g (List.mem_cons_self g t) with hE | hF
      · simp [processFile, hE]
      · exact processFile_of_fails nlp s d fs g hF
    have hstep : tag_files nlp s d (g :: t) fs
        = tag_files nlp s d t (processFile nlp s d fs g) := rfl
    rw [hstep, hpg]
    exact ih fs (fun f hf => h f (List.mem_cons_of_mem g hf))

/-- A concrete deterministic stand-in for the stanfordnlp pipeline, used by
the closed instances below: it fails on the text `"bad"` and otherwise
returns a one-sentence, one-word document. -/
def nlpStub : String → Option Document :=
  fun t =>
    if t = "bad" then none
    else some ⟨[⟨[⟨1, t, some t, some "NOUN", none, none, some 0, some "root"⟩]⟩]⟩

/-- A readable source file. -/
def fileA : SrcFile := ⟨"a.txt", some "ena"⟩

/-- A malformed source file: the stub pipeline raises on its content. -/
def fileB : SrcFile := ⟨"b.txt", some "bad"⟩

/-- Another readable source file. -/
def fileC : SrcFile := ⟨"c.txt", some "dva"⟩

/-- C5: a file whose derived output path already exists is skipped and the
destination is left unchanged, and running `tag_files` a second time over
the same listing and destination changes nothing: the output files after
the second run are identical to those after the first. -/
theorem tag_files_idempotent :
    ∀ (nlp : String → Option Document) (source destination : String)
      (files : List SrcFile) (fs : FS),
      (∀ (f : SrcFile) (fs0 : FS),
          pathExists fs0 (outFile destination f.name) = true →
          processFile nlp source destination fs0 f = fs0) ∧
      tag_files nlp source destination files
          (tag_files nlp source destination files fs)
        = tag_files nlp source destination files fs := by
  intro nlp s d files fs
  constructor
  · intro f fs0 h
    simp [processFile, h]
  · apply tag_files_id_of_covered
    intro f hf
    exact tag_files_covers nlp s d files fs f hf

/-- C5 witness: with the stub pipeline, a file whose output `dst/a.cupt`
already exists is skipped, and a two-file batch re-run on its own result is
unchanged. -/
theorem tag_files_idempotent_witness :
    processFile nlpStub "src" "dst" [("dst/a.cupt", "x")] fileA = [("dst/a.cupt", "x")] ∧
    tag_files nlpStub "src" "dst" [fileA, fileB]
        (tag_files nlpStub "src" "dst" [fileA, fileB] [])
      = tag_files nlpStub "src" "dst" [fileA, fileB] [] := by
  have h := tag_files_idempotent nlpStub "src" "dst" [fileA, fileB] []
  exact ⟨h.1 fileA [("dst/a.cupt", "x")] (by decide), h.2⟩

/-- C6: an exception while processing one file is caught at that file's
boundary: the batch result is exactly the result of processing the
remaining files, so in a batch where one file is malformed all other files
are converted as usual. -/
theorem tag_files_isolates_failures :
    ∀ (nlp : String → Option Document) (source destination : String)
      (pre post : List SrcFile) (f : SrcFile) (fs : FS),
      procFails nlp f = true →
      tag_files nlp source destination (pre ++ f :: post) fs
        = tag_files nlp source destination (pre ++ post) fs := by
  intro nlp s d pre post f fs h
  unfold tag_files
  rw [List.foldl_append, List.foldl_append, List.foldl_cons,
    processFile_of_fails nlp s d _ f h]

/-- C6 witness: in the three-file batch `[fileA, fileB, fileC]` where only
`fileB` is malformed, the result equals the conversion of `[fileA, fileC]`
alone. -/
theorem tag_files_isolates_failures_witness :
    tag_files nlpStub "src" "dst" [fileA, fileB, fileC] []
      = tag_files nlpStub "src" "dst" [fileA, fileC] [] :=
  tag_files_isolates_failures nlpStub "src" "dst" [fileA] [fileC] fileB [] (by decide)

/-- C7: when reading a file or running the pipeline on it fails, the
destination filesystem is left exactly as it was — in particular, if the
file's output path was absent before, it is still absent afterwards, so a
failed file never leaves an output file behind. -/
theorem processFile_atomic_on_failure :
    ∀ (nlp : String → Option Document) (source destination : String)
      (fs : FS) (f : SrcFile),
      procFails nlp f = true →
      processFile nlp source destination fs f = fs ∧
      (pathExists fs (outFile destination f.name) = false →
        pathExists (processFile nlp source destination fs f)
          (outFile destination f.name) = false) := by
  intro nlp s d fs f h
  have h1 := processFile_of_fails nlp s d fs f h
  exact ⟨h1, fun h2 => by rw [h1]; exact h2⟩

/-- C7 witness: the malformed `fileB` processed against an empty
destination writes nothing, and its output path `dst/b.cupt` stays
absent. -/
theorem processFile_atomic_on_failure_witness :
    processFile nlpStub "src" "dst" [] fileB = [] ∧
    pathExists (processFile nlpStub "src" "dst" [] fileB) (outFile "dst" "b.txt") = false := by
  have h := processFile_atomic_on_failure nlpStub "src" "dst" [] fileB (by decide)
  exact ⟨h.1, h.2 (by decide)⟩

end AddDeps
